import Mathlib

/-!
# putstuff: a shallow embedding of `main.go`

`main.go` is an HTTP file store over the directory `./uploads`: the handler
`genericFileAccess` serves `GET`, `HEAD`, `PUT` and `DELETE` on `/files/{name...}`,
`setHeaders` resolves the metadata headers for `GET` and `HEAD`, and `allFiles`
lists the directory as JSON on `/files`.

The handlers are embedded as pure functions.  What they get from outside is made
explicit:

* `FS` is the file system of the host: the files and directories there are, each
  under its cleaned path relative to the working directory of the server
  (`uploads` is the storage root, `uploads/a.txt` a file in it); a handler returns
  the file system it leaves behind;
* `Faults` says which of the file-system calls of one request fail and how, so that
  every error branch of the source can be reached;
* `Platform` holds the entries of the host's MIME database that Go's package `mime`
  registers at start-up;
* `ResponseWriter` records what the handler did with its `http.ResponseWriter`, and
  whether it returned or panicked.

The source reaches a file in two ways.  `PUT` and `DELETE` call
`os.Create(path.Join(dirName, name))` and `os.Remove(path.Join(dirName, name))`, and
`path.Join` cleans the path: the names `a.txt` and `a.txt/` are the same file
`uploads/a.txt`, the empty name is the storage root itself, and `../x` is a file
beside it.  `GET` and `HEAD` call `dir.Stat(name)` and `dir.Open(name)` on
`os.DirFS(dirName)`, which hands `dirName + "/" + name` to the system for a name that
is a valid path (`ValidPath`): that is the file at `path.Join(dirName, name)` again.

A call succeeds or fails as follows.  `Stat`, `Open`, `os.Remove` and `ReadDir` report
"does not exist" when there is nothing at the path.  Every other failure is a fault
of the call, given by `Faults`: a name `os.DirFS` refuses because it is not a valid
path (`dirFSFaults name` are the faults of a request on `name` over a sound file
system), a directory where a file is wanted, a directory that is not empty, a missing
parent directory, a permission or input/output error.  With no fault a call does what
it does when it succeeds (`noFaults`: no call of the request fails).

The functions of Go's standard library the source calls (`path.Join`, `path.Ext`,
`mime.TypeByExtension`, `strconv.FormatInt`, `json.Marshal`, the response writer of
`net/http`) are modelled after their documented behaviour.  Names and paths are Unicode strings.
Log output is not modelled: it is not part of a response.
-/

namespace Putstuff

/-! ## Constants (`main.go`, package `net/http`) -/

/-- The constant `dirName` of `main.go`. -/
def dirName : String := "./uploads"

def MethodGet : String := "GET"
def MethodHead : String := "HEAD"
def MethodPut : String := "PUT"
def MethodDelete : String := "DELETE"

def StatusOK : Nat := 200
def StatusCreated : Nat := 201
def StatusNoContent : Nat := 204
def StatusNotFound : Nat := 404
def StatusMethodNotAllowed : Nat := 405
def StatusInternalServerError : Nat := 500

/-! ## Paths (packages `path` and `io/fs`) -/

/-- The elements of a path: what stands between its slashes, as `strings.Split`
gives it. -/
def splitSlash : List Char → List (List Char)
  | [] => [[]]
  | c :: cs =>
    if c = '/' then [] :: splitSlash cs
    else
      match splitSlash cs with
      | [] => [[c]]
      | seg :: rest => (c :: seg) :: rest

/-- The elements joined with slashes. -/
def joinSlash : List (List Char) → List Char
  | [] => []
  | [seg] => seg
  | seg :: rest => seg ++ '/' :: joinSlash rest

/-- One element in the walk of `path.Clean`; `stack` holds the elements kept so far,
the last one first.  An empty element and `.` are dropped; `..` removes the element
before it, is dropped at the top of a rooted path, and is kept where there is nothing
to remove; every other element is kept. -/
def cleanStep (rooted : Bool) (stack : List (List Char)) (elem : List Char) :
    List (List Char) :=
  if elem = [] ∨ elem = ['.'] then stack
  else if elem = ['.', '.'] then
    match stack with
    | [] => if rooted then [] else [elem]
    | top :: rest => if top = ['.', '.'] then elem :: stack else rest
  else elem :: stack

/-- Go's `path.Clean`: the shortest path that names the same place by purely lexical
processing; the empty result is `.`. -/
def Clean (path : String) : String :=
  let rooted : Bool := path.toList.head? = some '/'
  let out := ((splitSlash path.toList).foldl (cleanStep rooted) []).reverse
  if rooted then String.mk ('/' :: joinSlash out)
  else if out = [] then "."
  else String.mk (joinSlash out)

/-- Go's `path.Join` of two elements: empty elements are ignored, the others are
joined with a slash and the result is cleaned; two empty elements give the empty
string. -/
def Join (a b : String) : String :=
  if a = "" then (if b = "" then "" else Clean b)
  else if b = "" then Clean a
  else Clean (String.mk (a.toList ++ '/' :: b.toList))

/-- Go's `fs.ValidPath`: the name is `.`, or each of its slash-separated elements is
non-empty and neither `.` nor `..`. -/
def ValidPath (name : String) : Bool :=
  decide (name = ".") ||
    (splitSlash name.toList).all
      (fun elem => decide (elem ≠ [] ∧ elem ≠ ['.'] ∧ elem ≠ ['.', '.']))

/-! ## Bytes, errors, the file system -/

abbrev Byte := UInt8

/-- The errors of the file-system calls, as far as the source tells them apart: it
asks `os.IsNotExist(err)` and nothing else. -/
inductive FsError where
  | notExist
  | other
  deriving DecidableEq, Repr

/-- Go's `os.IsNotExist` on a non-nil error. -/
def IsNotExist (err : FsError) : Bool :=
  match err with
  | FsError.notExist => true
  | FsError.other => false

/-- What there is at a path: a file with its content, or a directory with the size
the system reports for it. -/
inductive Node where
  | file (data : List Byte)
  | dir (size : Nat)
  deriving DecidableEq, Repr

/-- The size `Stat` and `Info()` report: of a file, the length of its content. -/
def Node.size (node : Node) : Nat :=
  match node with
  | Node.file data => data.length
  | Node.dir size => size

/-- The bytes a reader of the node gets: of a directory none, reading it fails at
once. -/
def Node.content (node : Node) : List Byte :=
  match node with
  | Node.file data => data
  | Node.dir _ => []

/-- The file system of the host: the files and directories there are, each with its
cleaned path relative to the working directory.  It is taken to be a plain tree: one
path for each file (no links), names compared character by character. -/
abbrev FS := List (String × Node)

/-- What there is at a path, if anything. -/
def FS.lookup (fs : FS) (path : String) : Option Node :=
  match fs with
  | [] => none
  | e :: rest => if e.1 = path then some e.2 else FS.lookup rest path

/-- What the resource name stands for, if anything: what there is at
`path.Join(dirName, name)`. -/
def FS.find (fs : FS) (name : String) : Option Node :=
  fs.lookup (Join dirName name)

/-- The file system after `node` has been put at `path`: what was there is replaced
in place, a new entry is added. -/
def FS.store (fs : FS) (path : String) (node : Node) : FS :=
  match fs with
  | [] => [(path, node)]
  | e :: rest => if e.1 = path then (path, node) :: rest else e :: FS.store rest path node

/-- The file system without what was at the path. -/
def FS.erase (fs : FS) (path : String) : FS :=
  fs.filter (fun e => decide (e.1 ≠ path))

/-- Which file-system calls of one request fail for a reason other than the absence
of the file.  `none` everywhere: no call fails for such a reason. -/
structure Faults where
  /-- error forced on `dir.(fs.StatFS).Stat` -/
  stat : Option FsError
  /-- error forced on `dir.Open` -/
  openErr : Option FsError
  /-- error forced on `os.Create` -/
  create : Option FsError
  /-- the call `io.Copy(file, r.Body)` fails after having written that many bytes -/
  copyIn : Option Nat
  /-- the call `io.Copy(w, file)` fails after having written that many bytes -/
  copyOut : Option Nat
  /-- error forced on `os.Remove` -/
  remove : Option FsError
  /-- error forced on `dir.(fs.ReadDirFS).ReadDir` -/
  readDir : Option FsError
  /-- error forced on `entry.Info()` of the entry with that name -/
  info : String → Option FsError

/-- A file system whose calls do not fail. -/
def noFaults : Faults :=
  { stat := none, openErr := none, create := none, copyIn := none, copyOut := none,
    remove := none, readDir := none, info := fun _ => none }

/-- The faults a sound file system has for a request on `name`: `os.DirFS` refuses a
name that is not a valid path, so `Stat` and `Open` fail with `ErrInvalid`, which is
not "does not exist"; no other call fails. -/
def dirFSFaults (name : String) : Faults :=
  if ValidPath name then noFaults
  else { noFaults with stat := some FsError.other, openErr := some FsError.other }

/-- What the source reads of an `fs.FileInfo`: `Size()`. -/
structure FileInfo where
  Size : Int
  deriving DecidableEq, Repr

/-- The call `dir.(fs.StatFS).Stat(name)` on `dir = os.DirFS(dirName)`: the size of what
is at `path.Join(dirName, name)`.  That `os.DirFS` refuses a name that is not a valid
path is a fault of the call (`dirFSFaults`). -/
def Stat (flt : Faults) (fs : FS) (name : String) : Except FsError FileInfo :=
  match flt.stat with
  | some err => Except.error err
  | none =>
    match fs.find name with
    | some node => Except.ok { Size := (node.size : Int) }
    | none => Except.error FsError.notExist

/-- The call `dir.Open(name)` on `dir = os.DirFS(dirName)`; the file it returns is
modelled by the bytes a reader gets from it.  That `os.DirFS` refuses a name that is
not a valid path is a fault of the call (`dirFSFaults`). -/
def Open (flt : Faults) (fs : FS) (name : String) : Except FsError (List Byte) :=
  match flt.openErr with
  | some err => Except.error err
  | none =>
    match fs.find name with
    | some node => Except.ok node.content
    | none => Except.error FsError.notExist

/-- The call `os.Create(path)`, which the source makes with
`path.Join(dirName, filename)`: creates the file or truncates it.  Returns the error
(Go's `nil` is `none`) and the file system afterwards. -/
def Create (flt : Faults) (fs : FS) (path : String) : Option FsError × FS :=
  match flt.create with
  | some err => (some err, fs)
  | none => (none, fs.store path (Node.file []))

/-- The call `io.Copy(file, r.Body)` into the file just created at `path`. A copy
that fails leaves what it had written. -/
def copyBody (flt : Faults) (fs : FS) (path : String) (body : List Byte) :
    Option FsError × FS :=
  match flt.copyIn with
  | some k => (some FsError.other, fs.store path (Node.file (body.take k)))
  | none => (none, fs.store path (Node.file body))

/-- The call `os.Remove(path)`, which the source makes with
`path.Join(dirName, filename)`: removes the file or the directory at the path. -/
def Remove (flt : Faults) (fs : FS) (path : String) : Option FsError × FS :=
  match flt.remove with
  | some err => (some err, fs)
  | none =>
    match fs.lookup path with
    | some _ => (none, fs.erase path)
    | none => (some FsError.notExist, fs)

/-- An `fs.DirEntry`, as far as `allFiles` reads it: `Name()` and `Info()`. -/
structure DirEntry where
  Name : String
  Info : Except FsError FileInfo

/-- The path of the storage root: `path.Join(dirName, ".")`, which is `uploads`. -/
def rootPath : String := Join dirName "."

/-- The name under which the storage root lists what is at `path`, if it is directly
in the root: the path is that of the root, a slash, and one element (not empty, without
a slash, neither `.` nor `..`). -/
def childName (path : String) : Option String :=
  let pre := rootPath.toList ++ ['/']
  let seg := path.toList.drop pre.length
  if pre.isPrefixOf path.toList ∧ seg ≠ [] ∧ '/' ∉ seg ∧ seg ≠ ['.'] ∧ seg ≠ ['.', '.']
  then some (String.mk seg)
  else none

/-- An entry put in its place in a list that is sorted by name; names are compared
character by character, which is the order of their bytes. -/
def insertByName (e : String × Node) : List (String × Node) → List (String × Node)
  | [] => [e]
  | x :: rest =>
    if e.1.toList < x.1.toList then e :: x :: rest else x :: insertByName e rest

/-- The entries sorted by name, as `os.ReadDir` returns them. -/
def sortByName : List (String × Node) → List (String × Node)
  | [] => []
  | e :: rest => insertByName e (sortByName rest)

/-- What is directly in the storage root, by name, in the order in which the root
enumerates it: sorted by name. -/
def children (fs : FS) : List (String × Node) :=
  sortByName (fs.filterMap (fun e => (childName e.1).map (fun name => (name, e.2))))

/-- The call `dir.(fs.ReadDirFS).ReadDir(".")`: the entries of the storage root.  It
fails when there is no storage root, or a file in its place. -/
def ReadDir (flt : Faults) (fs : FS) : Except FsError (List DirEntry) :=
  match flt.readDir with
  | some err => Except.error err
  | none =>
    match fs.lookup rootPath with
    | none => Except.error FsError.notExist
    | some (Node.file _) => Except.error FsError.other
    | some (Node.dir _) =>
      Except.ok ((children fs).map (fun e =>
        { Name := e.1,
          Info := match flt.info e.1 with
            | some err => Except.error err
            | none => Except.ok { Size := (e.2.size : Int) } }))

/-! ## The response writer (package `net/http`) -/

/-- What a handler has done with its `http.ResponseWriter`. -/
structure ResponseWriter where
  /-- the code of the first `WriteHeader`; `none` while no header has been written -/
  status : Option Nat
  /-- the header map `w.Header()` -/
  header : List (String × String)
  /-- the bytes written as body -/
  body : List Byte
  /-- the handler did not return: it panicked -/
  panicked : Bool

/-- The writer a handler is called with. -/
def ResponseWriter.new : ResponseWriter :=
  { status := none, header := [], body := [], panicked := false }

/-- The call `w.WriteHeader(code)`: only the first call of a response counts. -/
def ResponseWriter.WriteHeader (w : ResponseWriter) (code : Nat) : ResponseWriter :=
  match w.status with
  | some _ => w
  | none => { w with status := some code }

/-- The call `w.Header().Set(key, value)`. -/
def ResponseWriter.Set (w : ResponseWriter) (key value : String) : ResponseWriter :=
  { w with header := (key, value) :: w.header.filter (fun e => decide (e.1 ≠ key)) }

/-- The value `w.Header()` holds for `key`, if the key is set. -/
def ResponseWriter.Get (w : ResponseWriter) (key : String) : Option String :=
  (w.header.find? (fun e => decide (e.1 = key))).map (fun e => e.2)

/-- The call `w.Write(p)`: writes the header with status 200 if none was written. -/
def ResponseWriter.Write (w : ResponseWriter) (p : List Byte) : ResponseWriter :=
  let w1 := w.WriteHeader StatusOK
  { w1 with body := w1.body ++ p }

/-- The status the client is sent. A handler that returns without having written a
header gets 200 from the server; a handler that panics gets no response at all, the
server closes the connection. -/
def ResponseWriter.statusCode (w : ResponseWriter) : Option Nat :=
  if w.panicked then none else some (w.status.getD StatusOK)

/-- The call `io.Copy(w, file)`: `Write` is called only when there are bytes to
write. -/
def copyFile (flt : Faults) (w : ResponseWriter) (file : List Byte) : ResponseWriter :=
  let sent := match flt.copyOut with
    | some k => file.take k
    | none => file
  if sent = [] then w else w.Write sent

/-! ## MIME types by extension (packages `path` and `mime`) -/

/-- The scan of Go's `path.Ext` from the end of the path: `rev` is what is left of
the path, last character first, `acc` what has been passed. -/
def extScan (rev acc : List Char) : List Char :=
  match rev with
  | [] => []
  | c :: rest =>
    if c = '/' then []
    else if c = '.' then '.' :: acc
    else extScan rest (c :: acc)

/-- Go's `path.Ext`: the suffix beginning at the final dot in the final
slash-separated element of the path; empty if there is no dot. -/
def Ext (path : String) : String :=
  String.mk (extScan path.toList.reverse [])

/-- The host of the server, as far as the handlers depend on it: the entries of the
system MIME database that package `mime` registers at start-up, each an extension
with its leading dot and a bare media type such as `text/plain`. -/
structure Platform where
  mimeTypes : List (String × String)

/-- The table built into package `mime` (`builtinTypesLower`). -/
def builtinTypesLower : List (String × String) :=
  [ (".avif", "image/avif"),
    (".css", "text/css; charset=utf-8"),
    (".gif", "image/gif"),
    (".htm", "text/html; charset=utf-8"),
    (".html", "text/html; charset=utf-8"),
    (".jpeg", "image/jpeg"),
    (".jpg", "image/jpeg"),
    (".js", "text/javascript; charset=utf-8"),
    (".json", "application/json"),
    (".mjs", "text/javascript; charset=utf-8"),
    (".pdf", "application/pdf"),
    (".png", "image/png"),
    (".svg", "image/svg+xml"),
    (".wasm", "application/wasm"),
    (".webp", "image/webp"),
    (".xml", "text/xml; charset=utf-8") ]

/-- The type package `mime` registers for a bare media type read from the system
database (`setExtensionType`): a text type gets the parameter `charset=utf-8`. -/
def setExtensionType (mimeType : String) : String :=
  if "text/".toList.isPrefixOf mimeType.toList then mimeType ++ "; charset=utf-8" else mimeType

/-- ASCII lower case, as `mime.TypeByExtension` uses it on an extension. -/
def lowerASCII (s : String) : String :=
  String.mk (s.toList.map Char.toLower)

/-- The table `mime.TypeByExtension` looks extensions up in: what was registered from
the system database, then the built-in entries. -/
def mimeTable (p : Platform) : List (String × String) :=
  p.mimeTypes.map (fun e => (e.1, setExtensionType e.2)) ++ builtinTypesLower

/-- Go's `mime.TypeByExtension`: the extension is looked up case-sensitively, then
case-insensitively; an extension without a type gives the empty string. -/
def TypeByExtension (p : Platform) (ext : String) : String :=
  match (mimeTable p).lookup ext with
  | some t => t
  | none =>
    match ((mimeTable p).map (fun e => (lowerASCII e.1, e.2))).lookup (lowerASCII ext) with
    | some t => t
    | none => ""

/-- Go's `strconv.FormatInt(i, 10)`. -/
def FormatInt (i : Int) : String := toString i

/-! ## The handlers of `main.go` -/

/-- What a handler reads of the `*http.Request`: the method, the path value `name`
and the body. -/
structure Request where
  Method : String
  name : String
  Body : List Byte

/-- The function `setHeaders` of `main.go`: returns the writer and the error (`none`
is Go's `nil`). -/
def setHeaders (p : Platform) (flt : Faults) (fs : FS) (filename : String)
    (w : ResponseWriter) : ResponseWriter × Option FsError :=
  match Stat flt fs filename with
  | Except.error err =>
    if IsNotExist err then (w.WriteHeader StatusNotFound, some err)
    else (w.WriteHeader StatusInternalServerError, some err)
  | Except.ok stat =>
    let w1 := w.Set "Content-Type" (TypeByExtension p (Ext filename))
    let w2 := w1.Set "Content-Length" (FormatInt stat.Size)
    (w2, none)

/-- The `GET` case of `genericFileAccess`.  `file` is an `fs.File`, an interface
value, and it is `nil` when `dir.Open` fails; `defer file.Close()` comes before the
error is looked at, and evaluating the method of a nil interface value panics, so the
lines that would answer 500 are not reached. -/
def handleGet (p : Platform) (flt : Faults) (fs : FS) (w : ResponseWriter)
    (filename : String) : FS × ResponseWriter :=
  match setHeaders p flt fs filename w with
  | (w1, some _) => (fs, w1)
  | (w1, none) =>
    match Open flt fs filename with
    | Except.error _ => (fs, { w1 with panicked := true })
    | Except.ok file => (fs, copyFile flt w1 file)

/-- The `PUT` case of `genericFileAccess`.  Here `file` is an `*os.File`, and `Close`
on a nil `*os.File` returns an error without panicking. -/
def handlePut (flt : Faults) (fs : FS) (w : ResponseWriter)
    (filename : String) (body : List Byte) : FS × ResponseWriter :=
  let successCode :=
    match Stat flt fs filename with
    | Except.error err => if IsNotExist err then StatusCreated else StatusNoContent
    | Except.ok _ => StatusNoContent
  match Create flt fs (Join dirName filename) with
  | (some _, fs1) => (fs1, w.WriteHeader StatusInternalServerError)
  | (none, fs1) =>
    match copyBody flt fs1 (Join dirName filename) body with
    | (some _, fs2) => (fs2, w.WriteHeader StatusInternalServerError)
    | (none, fs2) => (fs2, w.WriteHeader successCode)

/-- The `DELETE` case of `genericFileAccess`. -/
def handleDelete (flt : Faults) (fs : FS) (w : ResponseWriter)
    (filename : String) : FS × ResponseWriter :=
  match Remove flt fs (Join dirName filename) with
  | (some err, fs1) =>
    if IsNotExist err then (fs1, w.WriteHeader StatusNotFound)
    else (fs1, w.WriteHeader StatusInternalServerError)
  | (none, fs1) => (fs1, w.WriteHeader StatusNoContent)

/-- The `HEAD` case of `genericFileAccess`. -/
def handleHead (p : Platform) (flt : Faults) (fs : FS) (w : ResponseWriter)
    (filename : String) : FS × ResponseWriter :=
  match setHeaders p flt fs filename w with
  | (w1, none) => (fs, w1.WriteHeader StatusOK)
  | (w1, some _) => (fs, w1)

/-- The handler `genericFileAccess` of `main.go`: the file system it leaves and
what it did with the response writer. -/
def genericFileAccess (p : Platform) (flt : Faults) (fs : FS) (w : ResponseWriter)
    (r : Request) : FS × ResponseWriter :=
  let filename := r.name
  if r.Method = MethodGet then handleGet p flt fs w filename
  else if r.Method = MethodPut then handlePut flt fs w filename r.Body
  else if r.Method = MethodDelete then handleDelete flt fs w filename
  else if r.Method = MethodHead then handleHead p flt fs w filename
  else (fs, w.WriteHeader StatusMethodNotAllowed)

/-- The struct `FileEntry` of `main.go`. -/
structure FileEntry where
  Name : String
  Size : Int
  Mimetype : String
  deriving DecidableEq, Repr

/-- One round of the loop of `allFiles`: the `FileEntry` of a directory entry. -/
def fileEntryOf (p : Platform) (entry : DirEntry) : FileEntry :=
  let filename := entry.Name
  { Name := filename,
    Mimetype := TypeByExtension p (Ext filename),
    Size := match entry.Info with
      | Except.error _ => -1
      | Except.ok stat => stat.Size }

/-! ### JSON (package `encoding/json`) -/

/-- A hexadecimal digit, lower case. -/
def hexDigit (n : Nat) : Char :=
  "0123456789abcdef".toList.getD n '0'

/-- The escape `\u00XX` of a character below 256. -/
def escapeU00 (c : Char) : String :=
  String.mk ['\\', 'u', '0', '0', hexDigit (c.toNat / 16), hexDigit (c.toNat % 16)]

/-- How `json.Marshal` writes one character of a string (HTML escaping is on). -/
def encodeChar (c : Char) : String :=
  if c = '"' then String.mk ['\\', '"']
  else if c = '\\' then String.mk ['\\', '\\']
  else if c = '\x08' then String.mk ['\\', 'b']
  else if c = '\x0c' then String.mk ['\\', 'f']
  else if c = '\n' then String.mk ['\\', 'n']
  else if c = '\r' then String.mk ['\\', 'r']
  else if c = '\t' then String.mk ['\\', 't']
  else if c.toNat < 32 ∨ c = '<' ∨ c = '>' ∨ c = '&' then escapeU00 c
  else if c = '\u2028' then String.mk ['\\', 'u', '2', '0', '2', '8']
  else if c = '\u2029' then String.mk ['\\', 'u', '2', '0', '2', '9']
  else String.singleton c

/-- How `json.Marshal` writes a string. -/
def encodeString (s : String) : String :=
  "\"" ++ String.join (s.toList.map encodeChar) ++ "\""

/-- How `json.Marshal` writes a `FileEntry`: an object with the tagged fields in the
order of the struct. -/
def encodeFileEntry (f : FileEntry) : String :=
  "\x7b\"name\":" ++ encodeString f.Name ++ ",\"size\":" ++ toString f.Size
    ++ ",\"mimetype\":" ++ encodeString f.Mimetype ++ "\x7d"

/-- The call `json.Marshal(files)` on a `[]FileEntry` that is not nil: an array of
the objects, in the order of the slice. It has no error case for this type. -/
def Marshal (files : List FileEntry) : String :=
  "[" ++ String.intercalate "," (files.map encodeFileEntry) ++ "]"

/-- The bytes of a string, which in Go is its UTF-8 encoding. -/
def bytesOf (s : String) : List Byte := s.toUTF8.data.toList

/-- The handler `allFiles` of `main.go`. -/
def allFiles (p : Platform) (flt : Faults) (fs : FS) (w : ResponseWriter) : ResponseWriter :=
  match ReadDir flt fs with
  | Except.error _ => w.WriteHeader StatusInternalServerError
  | Except.ok entries =>
    let files := entries.map (fileEntryOf p)
    let json_result := Marshal files
    (w.Set "Content-Type" "application/json").Write (bytesOf json_result)

/-! ## Sequences of requests -/

/-- A request on `/files/{name...}` as the handler sees it, with a fresh writer. -/
def serve (p : Platform) (flt : Faults) (fs : FS) (r : Request) : FS × ResponseWriter :=
  genericFileAccess p flt fs ResponseWriter.new r

/-- The faults of a request whose `Stat` fails with `err` while no other call
fails. -/
def statFails (err : FsError) : Faults := { noFaults with stat := some err }

/-- The faults of a request whose `dir.Open` fails with `err` while no other call
fails. -/
def openFails (err : FsError) : Faults := { noFaults with openErr := some err }

/-- The faults of a request whose `os.Create` fails with `err` while no other call
fails. -/
def createFails (err : FsError) : Faults := { noFaults with create := some err }

/-- The faults of a request whose `os.Remove` fails with `err` while no other call
fails. -/
def removeFails (err : FsError) : Faults := { noFaults with remove := some err }

/-- The faults of a listing in which `Info()` fails for the entry `name` only. -/
def infoFails (name : String) : Faults :=
  { noFaults with info := fun n => if n = name then some FsError.other else none }

/-- A host whose MIME database has the usual entry for `.txt`. -/
def hostWithTxt : Platform := { mimeTypes := [(".txt", "text/plain")] }

/-- The bytes of `hello`. -/
def hello : List Byte := [104, 101, 108, 108, 111]

/-- The bytes of `hi`. -/
def hi : List Byte := [104, 105]

/-- A file system that holds the storage root and nothing in it. -/
def emptyRoot : FS := [("uploads", Node.dir 4096)]

/-- A file system whose storage root holds the file `a.txt` with the given content. -/
def rootWithA (data : List Byte) : FS :=
  [("uploads", Node.dir 4096), ("uploads/a.txt", Node.file data)]

/-- A file system whose storage root holds `a.txt` with the bytes of `hello` and `b`
with the bytes of `hi`. -/
def rootWithAB : FS :=
  [("uploads", Node.dir 4096), ("uploads/b", Node.file hi),
    ("uploads/a.txt", Node.file hello)]

/-- The requests of the scenario on `a.txt`, each over the file system the one before
it left, no call failing: `PUT` of `hello`, `GET`, `PUT` of `hi`, `GET`, `DELETE`,
`GET`. -/
def scenarioPut1 (p : Platform) (fs : FS) : FS × ResponseWriter :=
  serve p noFaults fs { Method := MethodPut, name := "a.txt", Body := hello }

/-- The first `GET` of the scenario. -/
def scenarioGet1 (p : Platform) (fs : FS) : FS × ResponseWriter :=
  serve p noFaults (scenarioPut1 p fs).1 { Method := MethodGet, name := "a.txt", Body := [] }

/-- The second `PUT` of the scenario, with the body `hi`. -/
def scenarioPut2 (p : Platform) (fs : FS) : FS × ResponseWriter :=
  serve p noFaults (scenarioGet1 p fs).1 { Method := MethodPut, name := "a.txt", Body := hi }

/-- The second `GET` of the scenario. -/
def scenarioGet2 (p : Platform) (fs : FS) : FS × ResponseWriter :=
  serve p noFaults (scenarioPut2 p fs).1 { Method := MethodGet, name := "a.txt", Body := [] }

/-- The `DELETE` of the scenario. -/
def scenarioDelete (p : Platform) (fs : FS) : FS × ResponseWriter :=
  serve p noFaults (scenarioGet2 p fs).1
    { Method := MethodDelete, name := "a.txt", Body := [] }

/-- The last `GET` of the scenario. -/
def scenarioGet3 (p : Platform) (fs : FS) : FS × ResponseWriter :=
  serve p noFaults (scenarioDelete p fs).1
    { Method := MethodGet, name := "a.txt", Body := [] }

/-! ## The file system: lookup after a write and after a removal -/

/-- The byte lists `hello` and `hi` are the request bodies "hello" and "hi". -/
theorem hello_hi_bytes : bytesOf "hello" = hello ∧ bytesOf "hi" = hi := by
  decide

theorem lookup_store_same (fs : FS) (path : String) (node : Node) :
    (fs.store path node).lookup path = some node := by
  induction fs with
  | nil => simp [FS.store, FS.lookup]
  | cons e rest ih =>
    by_cases h : e.1 = path
    · simp [FS.store, FS.lookup, h]
    · simp [FS.store, FS.lookup, h, ih]

theorem lookup_erase_same (fs : FS) (path : String) : (fs.erase path).lookup path = none := by
  induction fs with
  | nil => simp [FS.erase, FS.lookup]
  | cons e rest ih =>
    obtain ⟨k, v⟩ := e
    by_cases h : k = path
    · subst h
      simpa [FS.erase, List.filter] using ih
    · simpa [FS.erase, List.filter, h, FS.lookup] using ih

theorem lookup_of_mem (fs : FS) (path : String) (node : Node) (h : (path, node) ∈ fs) :
    fs.lookup path ≠ none := by
  induction fs with
  | nil => simp at h
  | cons e rest ih =>
    obtain ⟨k, v⟩ := e
    by_cases hk : k = path
    · simp [FS.lookup, hk]
    · have hmem : (path, node) ∈ rest := by
        rcases List.mem_cons.mp h with h1 | h1
        · exact absurd (congrArg Prod.fst h1).symm hk
        · exact h1
      simpa [FS.lookup, hk] using ih hmem

/-! ## Paths: a name the storage root lists is the path of its entry -/

theorem splitSlash_noSlash (seg : List Char) (h : '/' ∉ seg) : splitSlash seg = [seg] := by
  induction seg with
  | nil => rfl
  | cons c cs ih =>
    have hc : c ≠ '/' := fun hc => h (by simp [hc])
    have hcs : '/' ∉ cs := fun hm => h (List.mem_cons_of_mem c hm)
    simp [splitSlash, hc, ih hcs]

theorem splitSlash_append (seg rest : List Char) (h : '/' ∉ seg) :
    splitSlash (seg ++ '/' :: rest) = seg :: splitSlash rest := by
  induction seg with
  | nil => simp [splitSlash]
  | cons c cs ih =>
    have hc : c ≠ '/' := fun hc => h (by simp [hc])
    have hcs : '/' ∉ cs := fun hm => h (List.mem_cons_of_mem c hm)
    simp [splitSlash, hc, ih hcs]

theorem rootPath_eq : rootPath = "uploads" := by decide

/-- The path `path.Join` makes of the storage root and one proper element. -/
theorem join_element (seg : List Char) (h0 : seg ≠ []) (h1 : '/' ∉ seg)
    (h2 : seg ≠ ['.']) (h3 : seg ≠ ['.', '.']) :
    Join dirName (String.mk seg)
      = String.mk (['u', 'p', 'l', 'o', 'a', 'd', 's', '/'] ++ seg) := by
  have hne : String.mk seg ≠ "" := by
    intro h
    exact h0 (congrArg String.data h)
  have hd : dirName ≠ "" := by decide
  have hs : splitSlash ('.' :: '/' :: 'u' :: 'p' :: 'l' :: 'o' :: 'a' :: 'd' :: 's' :: '/' :: seg)
      = [['.'], ['u', 'p', 'l', 'o', 'a', 'd', 's'], seg] := by
    have e1 : '.' :: '/' :: 'u' :: 'p' :: 'l' :: 'o' :: 'a' :: 'd' :: 's' :: '/' :: seg
        = ['.'] ++ '/' :: (['u', 'p', 'l', 'o', 'a', 'd', 's'] ++ '/' :: seg) := rfl
    rw [e1, splitSlash_append _ _ (by decide), splitSlash_append _ _ (by decide),
      splitSlash_noSlash seg h1]
  have hj : String.mk (dirName.toList ++ '/' :: seg)
      = String.mk ('.' :: '/' :: 'u' :: 'p' :: 'l' :: 'o' :: 'a' :: 'd' :: 's' :: '/' :: seg) :=
    rfl
  rw [Join, if_neg hd, if_neg hne]
  show Clean (String.mk (dirName.toList ++ '/' :: seg)) = _
  rw [hj]
  simp only [Clean, String.toList, hs]
  simp [cleanStep, h0, h2, h3, joinSlash]

theorem join_child (path name : String) (h : childName path = some name) :
    Join dirName name = path := by
  unfold childName at h
  simp only [rootPath_eq] at h
  split at h
  · rename_i hc
    obtain ⟨hp, h0, h1, h2, h3⟩ := hc
    have hn := (Option.some.inj h).symm
    subst hn
    rw [join_element _ h0 h1 h2 h3]
    have hpre := List.isPrefixOf_iff_prefix.mp hp
    obtain ⟨t, ht⟩ := hpre
    have hdrop : List.drop ("uploads".toList ++ ['/']).length path.toList = t := by
      rw [← ht]
      simp
    rw [hdrop]
    have : path = String.mk path.toList := rfl
    rw [this, ← ht]
    rfl
  · simp at h

theorem mem_insertByName (e x : String × Node) (l : List (String × Node)) :
    x ∈ insertByName e l ↔ x = e ∨ x ∈ l := by
  induction l with
  | nil => simp [insertByName]
  | cons y rest ih =>
    unfold insertByName
    split
    · simp
    · simp only [List.mem_cons, ih]
      constructor
      · rintro (h | h | h)
        · exact Or.inr (Or.inl h)
        · exact Or.inl h
        · exact Or.inr (Or.inr h)
      · rintro (h | h | h)
        · exact Or.inr (Or.inl h)
        · exact Or.inl h
        · exact Or.inr (Or.inr h)

theorem mem_sortByName (x : String × Node) (l : List (String × Node)) :
    x ∈ sortByName l ↔ x ∈ l := by
  induction l with
  | nil => simp [sortByName]
  | cons y rest ih => simp [sortByName, mem_insertByName, ih]

/-- What the storage root lists under a name is what the name stands for. -/
theorem find_of_child (fs : FS) (name : String) (node : Node)
    (h : (name, node) ∈ children fs) : fs.find name ≠ none := by
  unfold children at h
  rw [mem_sortByName] at h
  obtain ⟨e, he, hm⟩ := List.mem_filterMap.mp h
  cases hc : childName e.1 with
  | none => simp [hc] at hm
  | some n =>
    simp only [hc, Option.map_some', Option.some.injEq, Prod.mk.injEq] at hm
    obtain ⟨hn, _⟩ := hm
    subst hn
    unfold FS.find
    rw [join_child e.1 n hc]
    exact lookup_of_mem fs e.1 e.2 he

/-! ## The MIME type of an extension -/

theorem lookup_mem_values (l : List (String × String)) (k v : String)
    (h : l.lookup k = some v) : v ∈ l.map Prod.snd := by
  induction l with
  | nil => simp [List.lookup] at h
  | cons e rest ih =>
    obtain ⟨a, b⟩ := e
    by_cases hk : k = a
    · subst hk
      simp [List.lookup] at h
      simp [h]
    · have hb : (k == a) = false := by simpa using hk
      simp only [List.lookup, hb] at h
      simp [ih h]

theorem lookup_append_of_some (l1 l2 : List (String × String)) (k v : String)
    (h : l1.lookup k = some v) : (l1 ++ l2).lookup k = some v := by
  induction l1 with
  | nil => simp [List.lookup] at h
  | cons e rest ih =>
    obtain ⟨a, b⟩ := e
    by_cases hk : k = a
    · subst hk
      simp [List.lookup] at h
      simp [List.lookup, h]
    · have hb : (k == a) = false := by simpa using hk
      simp only [List.lookup, hb, List.cons_append] at h ⊢
      exact ih h

theorem lookup_map_value (f : String → String) (l : List (String × String))
    (k v : String) (h : l.lookup k = some v) :
    (l.map (fun e => (e.1, f e.2))).lookup k = some (f v) := by
  induction l with
  | nil => simp [List.lookup] at h
  | cons e rest ih =>
    obtain ⟨a, b⟩ := e
    by_cases hk : k = a
    · subst hk
      simp [List.lookup] at h
      simp [List.lookup, h]
    · have hb : (k == a) = false := by simpa using hk
      simp only [List.lookup, hb, List.map_cons] at h ⊢
      exact ih h

/-- A host whose MIME database gives an extension a bare type: the type of the
extension is what `setExtensionType` made of it. -/
theorem typeByExtension_of_system (p : Platform) (ext t : String)
    (h : p.mimeTypes.lookup ext = some t) :
    TypeByExtension p ext = setExtensionType t := by
  unfold TypeByExtension mimeTable
  rw [lookup_append_of_some _ _ _ _ (lookup_map_value setExtensionType _ _ _ h)]

theorem setExtensionType_ne_text_plain (t : String) : setExtensionType t ≠ "text/plain" := by
  unfold setExtensionType
  split
  · intro h
    have hl := congrArg String.length h
    rw [String.length_append] at hl
    have h1 : "; charset=utf-8".length = 15 := by decide
    have h2 : "text/plain".length = 10 := by decide
    omega
  · rename_i hp
    intro h
    subst h
    exact hp (by decide)

/-- No host makes `mime.TypeByExtension` return the bare `text/plain`. -/
theorem typeByExtension_ne_text_plain (p : Platform) (ext : String) :
    TypeByExtension p ext ≠ "text/plain" := by
  have hval : ∀ v, v ∈ (mimeTable p).map Prod.snd → v ≠ "text/plain" := by
    intro v hv
    simp only [mimeTable, List.map_append, List.map_map, List.mem_append, List.mem_map,
      Function.comp] at hv
    rcases hv with ⟨e, _, he⟩ | ⟨e, hmem, he⟩
    · rw [← he]
      exact setExtensionType_ne_text_plain e.2
    · intro hv
      have : "text/plain" ∈ builtinTypesLower.map Prod.snd := by
        rw [← hv, ← he]
        exact List.mem_map_of_mem Prod.snd hmem
      exact absurd this (by decide)
  unfold TypeByExtension
  split
  · rename_i t ht
    exact hval t (lookup_mem_values _ _ _ ht)
  · split
    · rename_i t ht
      have := lookup_mem_values _ _ _ ht
      simp only [List.map_map] at this
      exact hval t (by simpa [Function.comp] using this)
    · decide

/-! ## What each case of the handler does to the file system -/

theorem handleGet_fs (p : Platform) (flt : Faults) (fs : FS) (w : ResponseWriter)
    (filename : String) : (handleGet p flt fs w filename).1 = fs := by
  unfold handleGet
  split
  · rfl
  · split <;> rfl

theorem genericFileAccess_get (p : Platform) (flt : Faults) (fs : FS) (w : ResponseWriter)
    (r : Request) (h : r.Method = MethodGet) :
    genericFileAccess p flt fs w r = handleGet p flt fs w r.name := by
  simp [genericFileAccess, h]

theorem genericFileAccess_put (p : Platform) (flt : Faults) (fs : FS) (w : ResponseWriter)
    (r : Request) (h : r.Method = MethodPut) :
    genericFileAccess p flt fs w r = handlePut flt fs w r.name r.Body := by
  simp [genericFileAccess, h, MethodGet, MethodPut]

theorem genericFileAccess_delete (p : Platform) (flt : Faults) (fs : FS)
    (w : ResponseWriter) (r : Request) (h : r.Method = MethodDelete) :
    genericFileAccess p flt fs w r = handleDelete flt fs w r.name := by
  simp [genericFileAccess, h, MethodGet, MethodPut, MethodDelete]

theorem genericFileAccess_head (p : Platform) (flt : Faults) (fs : FS) (w : ResponseWriter)
    (r : Request) (h : r.Method = MethodHead) :
    genericFileAccess p flt fs w r = handleHead p flt fs w r.name := by
  simp [genericFileAccess, h, MethodGet, MethodPut, MethodDelete, MethodHead]

theorem genericFileAccess_default (p : Platform) (flt : Faults) (fs : FS)
    (w : ResponseWriter) (r : Request) (hg : r.Method ≠ MethodGet)
    (hh : r.Method ≠ MethodHead) (hp : r.Method ≠ MethodPut) (hd : r.Method ≠ MethodDelete) :
    genericFileAccess p flt fs w r = (fs, w.WriteHeader StatusMethodNotAllowed) := by
  simp [genericFileAccess, hg, hh, hp, hd]

theorem put_noFaults (p : Platform) (fs : FS) (name : String) (body : List Byte) :
    serve p noFaults fs { Method := MethodPut, name := name, Body := body }
      = (((fs.store (Join dirName name) (Node.file [])).store (Join dirName name)
            (Node.file body)),
         ResponseWriter.new.WriteHeader
           (if fs.find name = none then StatusCreated else StatusNoContent)) := by
  rw [serve, genericFileAccess_put _ _ _ _ _ rfl]
  unfold handlePut Create copyBody Stat
  cases hf : fs.find name <;> simp [noFaults, IsNotExist]

theorem put_noFaults_find (p : Platform) (fs : FS) (name : String) (body : List Byte) :
    (serve p noFaults fs { Method := MethodPut, name := name, Body := body }).1.find name
      = some (Node.file body) := by
  rw [put_noFaults]
  exact lookup_store_same _ _ _

theorem setHeaders_ok (p : Platform) (flt : Faults) (fs : FS) (filename : String)
    (w : ResponseWriter) (node : Node) (hs : flt.stat = none)
    (hf : fs.find filename = some node) :
    setHeaders p flt fs filename w
      = ((w.Set "Content-Type" (TypeByExtension p (Ext filename))).Set "Content-Length"
          (FormatInt (node.size : Int)), none) := by
  simp [setHeaders, Stat, hs, hf]

theorem setHeaders_notExist (p : Platform) (flt : Faults) (fs : FS) (filename : String)
    (w : ResponseWriter) (hs : Stat flt fs filename = Except.error FsError.notExist) :
    setHeaders p flt fs filename w = (w.WriteHeader StatusNotFound, some FsError.notExist) := by
  simp [setHeaders, hs, IsNotExist]

theorem stat_absent (flt : Faults) (fs : FS) (name : String)
    (hs : flt.stat ≠ some FsError.other) (hf : fs.find name = none) :
    Stat flt fs name = Except.error FsError.notExist := by
  unfold Stat
  cases h : flt.stat with
  | none => simp [hf]
  | some err =>
    cases err with
    | notExist => rfl
    | other => exact absurd h hs

/-- The decimal string of a size is the same whether the size is read as an `int64` or
as a natural number. -/
theorem formatInt_natCast (n : Nat) : FormatInt (n : Int) = toString n := rfl

theorem get_noFaults (p : Platform) (fs : FS) (name : String) (gb : List Byte)
    (node : Node) (hf : fs.find name = some node) :
    (serve p noFaults fs { Method := MethodGet, name := name, Body := gb }).2.statusCode
        = some StatusOK
      ∧ (serve p noFaults fs { Method := MethodGet, name := name, Body := gb }).2.body
        = node.content := by
  rw [serve, genericFileAccess_get _ _ _ _ _ rfl]
  simp only [handleGet, setHeaders_ok p noFaults fs name _ node rfl hf]
  simp only [Open, noFaults, hf, copyFile]
  by_cases hd : node.content = []
  · simp [hd, ResponseWriter.statusCode, ResponseWriter.Set, ResponseWriter.new]
  · simp [hd, ResponseWriter.statusCode, ResponseWriter.Set, ResponseWriter.new,
      ResponseWriter.Write, ResponseWriter.WriteHeader]

theorem get_absent (p : Platform) (flt : Faults) (fs : FS) (name : String)
    (gb : List Byte) (hs : Stat flt fs name = Except.error FsError.notExist) :
    (serve p flt fs { Method := MethodGet, name := name, Body := gb }).2
      = ResponseWriter.new.WriteHeader StatusNotFound := by
  rw [serve, genericFileAccess_get _ _ _ _ _ rfl]
  simp only [handleGet, setHeaders_notExist p flt fs name _ hs]

theorem head_absent (p : Platform) (flt : Faults) (fs : FS) (name : String)
    (hb : List Byte) (hs : Stat flt fs name = Except.error FsError.notExist) :
    (serve p flt fs { Method := MethodHead, name := name, Body := hb }).2
      = ResponseWriter.new.WriteHeader StatusNotFound := by
  rw [serve, genericFileAccess_head _ _ _ _ _ rfl]
  simp only [handleHead, setHeaders_notExist p flt fs name _ hs]

theorem delete_noFaults_existing (p : Platform) (fs : FS) (name : String)
    (db : List Byte) (node : Node) (hf : fs.find name = some node) :
    serve p noFaults fs { Method := MethodDelete, name := name, Body := db }
      = (fs.erase (Join dirName name), ResponseWriter.new.WriteHeader StatusNoContent) := by
  rw [serve, genericFileAccess_delete _ _ _ _ _ rfl]
  unfold FS.find at hf
  simp [handleDelete, Remove, noFaults, hf]

/-- What `GET` and `HEAD` leave in the header map for an existing resource whose
`Stat` does not fail. -/
theorem headers_of_existing (p : Platform) (flt : Faults) (fs : FS) (name : String)
    (node : Node) (gb hb : List Byte) (hs : flt.stat = none)
    (hf : fs.find name = some node) :
    (serve p flt fs { Method := MethodGet, name := name, Body := gb }).2.header
        = (serve p flt fs { Method := MethodHead, name := name, Body := hb }).2.header
    ∧ (serve p flt fs { Method := MethodGet, name := name, Body := gb }).2.Get
        "Content-Length" = some (toString node.size)
    ∧ (serve p flt fs { Method := MethodGet, name := name, Body := gb }).2.Get
        "Content-Type" = some (TypeByExtension p (Ext name))
    ∧ (serve p flt fs { Method := MethodHead, name := name, Body := hb }).2.Get
        "Content-Length" = some (toString node.size)
    ∧ (serve p flt fs { Method := MethodHead, name := name, Body := hb }).2.Get
        "Content-Type" = some (TypeByExtension p (Ext name))
    ∧ (serve p flt fs { Method := MethodHead, name := name, Body := hb }).2.statusCode
        = some StatusOK
    ∧ (serve p flt fs { Method := MethodHead, name := name, Body := hb }).2.body = [] := by
  have hget : (serve p flt fs { Method := MethodGet, name := name, Body := gb }).2.header
      = [("Content-Length", FormatInt (node.size : Int)),
         ("Content-Type", TypeByExtension p (Ext name))] := by
    rw [serve, genericFileAccess_get _ _ _ _ _ rfl]
    simp only [handleGet, setHeaders_ok p flt fs name _ node hs hf]
    cases ho : Open flt fs name with
    | error err => simp [ResponseWriter.Set, ResponseWriter.new]
    | ok file =>
      simp only [copyFile]
      split <;>
        simp [ResponseWriter.Set, ResponseWriter.new, ResponseWriter.Write,
          ResponseWriter.WriteHeader]
  have hhead : (serve p flt fs { Method := MethodHead, name := name, Body := hb }).2
      = { status := some StatusOK,
          header := [("Content-Length", FormatInt (node.size : Int)),
            ("Content-Type", TypeByExtension p (Ext name))],
          body := [], panicked := false } := by
    rw [serve, genericFileAccess_head _ _ _ _ _ rfl]
    simp [handleHead, setHeaders_ok p flt fs name _ node hs hf, ResponseWriter.Set,
      ResponseWriter.new, ResponseWriter.WriteHeader]
  refine ⟨?_, ?_, ?_, ?_, ?_, ?_, ?_⟩
  · rw [hget, hhead]
  · simp [ResponseWriter.Get, hget, formatInt_natCast]
  · simp [ResponseWriter.Get, hget]
  · simp [ResponseWriter.Get, hhead, formatInt_natCast]
  · simp [ResponseWriter.Get, hhead]
  · simp [hhead, ResponseWriter.statusCode]
  · simp [hhead]

theorem get_existing_response (p : Platform) (fs : FS) (name : String)
    (gb : List Byte) (node : Node) (hf : fs.find name = some node) :
    (serve p noFaults fs { Method := MethodGet, name := name, Body := gb }).1 = fs
    ∧ (serve p noFaults fs { Method := MethodGet, name := name, Body := gb }).2.statusCode
      = some StatusOK
    ∧ (serve p noFaults fs { Method := MethodGet, name := name, Body := gb }).2.body
      = node.content
    ∧ (serve p noFaults fs { Method := MethodGet, name := name, Body := gb }).2.Get
      "Content-Length" = some (toString node.size)
    ∧ (serve p noFaults fs { Method := MethodGet, name := name, Body := gb }).2.Get
      "Content-Type" = some (TypeByExtension p (Ext name)) := by
  have h1 := get_noFaults p fs name gb node hf
  have h2 := headers_of_existing p noFaults fs name node gb [] rfl hf
  refine ⟨?_, h1.1, h1.2, h2.2.1, h2.2.2.1⟩
  rw [serve, genericFileAccess_get _ _ _ _ _ rfl, handleGet_fs]

theorem stat_ok (flt : Faults) (fs : FS) (name : String) (info : FileInfo)
    (h : Stat flt fs name = Except.ok info) :
    flt.stat = none ∧ ∃ node, fs.find name = some node ∧ info.Size = (node.size : Int) := by
  unfold Stat at h
  cases hs : flt.stat with
  | some err => simp [hs] at h
  | none =>
    cases hf : fs.find name with
    | none => simp [hs, hf] at h
    | some node =>
      simp only [hs, hf] at h
      exact ⟨rfl, node, rfl, by rw [← Except.ok.inj h]⟩

theorem stat_error (flt : Faults) (fs : FS) (name : String) (err : FsError)
    (h : Stat flt fs name = Except.error err) :
    flt.stat = some err ∨ (flt.stat = none ∧ fs.find name = none ∧ err = FsError.notExist) := by
  unfold Stat at h
  cases hs : flt.stat with
  | some e =>
    simp only [hs] at h
    exact Or.inl (by rw [Except.error.inj h])
  | none =>
    cases hf : fs.find name with
    | none =>
      simp only [hs, hf] at h
      exact Or.inr ⟨rfl, rfl, (Except.error.inj h).symm⟩
    | some node => simp [hs, hf] at h

theorem get_stat_other (p : Platform) (flt : Faults) (fs : FS) (name : String)
    (gb : List Byte) (hs : flt.stat = some FsError.other) :
    (serve p flt fs { Method := MethodGet, name := name, Body := gb }).2
      = ResponseWriter.new.WriteHeader StatusInternalServerError := by
  rw [serve, genericFileAccess_get _ _ _ _ _ rfl]
  simp [handleGet, setHeaders, Stat, hs, IsNotExist]

theorem head_stat_other (p : Platform) (flt : Faults) (fs : FS) (name : String)
    (hb : List Byte) (hs : flt.stat = some FsError.other) :
    (serve p flt fs { Method := MethodHead, name := name, Body := hb }).2
      = ResponseWriter.new.WriteHeader StatusInternalServerError := by
  rw [serve, genericFileAccess_head _ _ _ _ _ rfl]
  simp [handleHead, setHeaders, Stat, hs, IsNotExist]

/-- The header maps `GET` and `HEAD` leave are the same in every case: both come from
`setHeaders`. -/
theorem get_head_header_eq (p : Platform) (flt : Faults) (fs : FS) (name : String)
    (gb hb : List Byte) :
    (serve p flt fs { Method := MethodGet, name := name, Body := gb }).2.header
      = (serve p flt fs { Method := MethodHead, name := name, Body := hb }).2.header := by
  cases hs : Stat flt fs name with
  | ok info =>
    obtain ⟨h1, node, h2, _⟩ := stat_ok flt fs name info hs
    exact (headers_of_existing p flt fs name node gb hb h1 h2).1
  | error err =>
    cases err with
    | notExist => rw [get_absent p flt fs name gb hs, head_absent p flt fs name hb hs]
    | other =>
      have h1 : flt.stat = some FsError.other := by
        rcases stat_error flt fs name _ hs with h | ⟨_, _, h⟩
        · exact h
        · cases h
      rw [get_stat_other p flt fs name gb h1, head_stat_other p flt fs name hb h1]

/-! ## The claims -/

/-- Claim C2. Over a file system whose calls do not fail, for every name: a `PUT` on the
name while it does not exist (`fs0`) answers 201 and the name exists afterwards; a
`PUT` on the name while it exists (`fs1`) answers 204 and the name still exists; a
`DELETE` of the existing name succeeds with 204 and the `PUT` that follows it answers
201 again. -/
theorem put_created_then_no_content (p : Platform) (fs0 fs1 : FS) (name : String)
    (b db : List Byte) (h0 : fs0.find name = none) (h1 : fs1.find name ≠ none) :
    (serve p noFaults fs0 { Method := MethodPut, name := name, Body := b }).2.statusCode
        = some StatusCreated
    ∧ (serve p noFaults fs0 { Method := MethodPut, name := name, Body := b }).1.find name
        ≠ none
    ∧ (serve p noFaults fs1 { Method := MethodPut, name := name, Body := b }).2.statusCode
        = some StatusNoContent
    ∧ (serve p noFaults fs1 { Method := MethodPut, name := name, Body := b }).1.find name
        ≠ none
    ∧ (serve p noFaults fs1 { Method := MethodDelete, name := name, Body := db }).2.statusCode
        = some StatusNoContent
    ∧ (serve p noFaults
        (serve p noFaults fs1 { Method := MethodDelete, name := name, Body := db }).1
        { Method := MethodPut, name := name, Body := b }).2.statusCode
        = some StatusCreated := by
  obtain ⟨node, hd⟩ := Option.ne_none_iff_exists'.mp h1
  refine ⟨?_, ?_, ?_, ?_, ?_, ?_⟩
  · rw [put_noFaults, if_pos h0]; rfl
  · rw [put_noFaults_find]; simp
  · rw [put_noFaults, if_neg h1]; rfl
  · rw [put_noFaults_find]; simp
  · rw [delete_noFaults_existing p fs1 name db node hd]; rfl
  · have he : (fs1.erase (Join dirName name)).find name = none :=
      lookup_erase_same fs1 (Join dirName name)
    rw [delete_noFaults_existing p fs1 name db node hd, put_noFaults, if_pos he]
    rfl

/-- Witness of C2: the empty storage root, and one that holds `a.txt`. -/
theorem put_created_then_no_content_witness :
    (serve hostWithTxt noFaults emptyRoot
        { Method := MethodPut, name := "a.txt", Body := hello }).2.statusCode
        = some StatusCreated
    ∧ (serve hostWithTxt noFaults (rootWithA hi)
        { Method := MethodPut, name := "a.txt", Body := hello }).2.statusCode
        = some StatusNoContent
    ∧ (serve hostWithTxt noFaults
        (serve hostWithTxt noFaults (rootWithA hi)
          { Method := MethodDelete, name := "a.txt", Body := [] }).1
        { Method := MethodPut, name := "a.txt", Body := hello }).2.statusCode
        = some StatusCreated :=
  have h := put_created_then_no_content hostWithTxt emptyRoot (rootWithA hi) "a.txt" hello []
    (by decide) (by decide)
  ⟨h.1, h.2.2.1, h.2.2.2.2.2⟩

/-- Claim C3, as the source has it. For every name, `DELETE` answers by the outcome of
the removal of `path.Join(dirName, name)`: 404 when it fails with an error that says
the file does not exist (as it does when there is nothing at that path), 500 when it
fails with any other error, 204 when it succeeds (as it does when there is a file at
that path and the call does not fail), never with a body.  After a `DELETE` that
answered 204 there is nothing at that path, and a `GET` on the name answers 404,
unless the `Stat` of that `GET` fails for another reason: then it answers 500. -/
theorem delete_status (p : Platform) (flt : Faults) (fs : FS) (name : String)
    (db : List Byte) :
    (∀ err, (Remove flt fs (Join dirName name)).1 = some err → IsNotExist err = true →
      (serve p flt fs { Method := MethodDelete, name := name, Body := db }).2.statusCode
        = some StatusNotFound)
    ∧ (∀ err, (Remove flt fs (Join dirName name)).1 = some err → IsNotExist err = false →
      (serve p flt fs { Method := MethodDelete, name := name, Body := db }).2.statusCode
        = some StatusInternalServerError)
    ∧ ((Remove flt fs (Join dirName name)).1 = none →
      (serve p flt fs { Method := MethodDelete, name := name, Body := db }).2.statusCode
        = some StatusNoContent)
    ∧ (flt.remove = none → fs.lookup (Join dirName name) = none →
      (Remove flt fs (Join dirName name)).1 = some FsError.notExist)
    ∧ (∀ data, flt.remove = none → fs.lookup (Join dirName name) = some (Node.file data) →
      (Remove flt fs (Join dirName name)).1 = none)
    ∧ (serve p flt fs { Method := MethodDelete, name := name, Body := db }).2.body = []
    ∧ ((serve p flt fs { Method := MethodDelete, name := name, Body := db }).2.statusCode
        = some StatusNoContent →
      (serve p flt fs { Method := MethodDelete, name := name, Body := db }).1.lookup
          (Join dirName name) = none
      ∧ ∀ (g : Faults) (gb : List Byte),
        (g.stat ≠ some FsError.other →
          (serve p g
            (serve p flt fs { Method := MethodDelete, name := name, Body := db }).1
            { Method := MethodGet, name := name, Body := gb }).2.statusCode
            = some StatusNotFound)
        ∧ (g.stat = some FsError.other →
          (serve p g
            (serve p flt fs { Method := MethodDelete, name := name, Body := db }).1
            { Method := MethodGet, name := name, Body := gb }).2.statusCode
            = some StatusInternalServerError)) := by
  rw [serve, genericFileAccess_delete _ _ _ _ _ rfl]
  simp only [handleDelete]
  refine ⟨?_, ?_, ?_, ?_, ?_, ?_, ?_⟩
  · intro err h1 h2
    rcases hr : Remove flt fs (Join dirName name) with ⟨e, fs1⟩
    rw [hr] at h1
    simp only at h1
    subst h1
    simp [h2, ResponseWriter.WriteHeader, ResponseWriter.new, ResponseWriter.statusCode]
  · intro err h1 h2
    rcases hr : Remove flt fs (Join dirName name) with ⟨e, fs1⟩
    rw [hr] at h1
    simp only at h1
    subst h1
    simp [h2, ResponseWriter.WriteHeader, ResponseWriter.new, ResponseWriter.statusCode]
  · intro h1
    rcases hr : Remove flt fs (Join dirName name) with ⟨e, fs1⟩
    rw [hr] at h1
    simp only at h1
    subst h1
    simp [ResponseWriter.WriteHeader, ResponseWriter.new, ResponseWriter.statusCode]
  · intro h1 h2
    simp [Remove, h1, h2]
  · intro data h1 h2
    simp [Remove, h1, h2]
  · rcases hr : Remove flt fs (Join dirName name) with ⟨e, fs1⟩
    cases e with
    | none => simp [ResponseWriter.WriteHeader, ResponseWriter.new]
    | some err =>
      cases err <;> simp [IsNotExist, ResponseWriter.WriteHeader, ResponseWriter.new]
  · unfold Remove
    cases hrm : flt.remove with
    | some err =>
      cases err <;>
        simp [IsNotExist, ResponseWriter.WriteHeader, ResponseWriter.new,
          ResponseWriter.statusCode, StatusNotFound, StatusInternalServerError,
          StatusNoContent, StatusOK]
    | none =>
      cases hf : fs.lookup (Join dirName name) with
      | none =>
        simp [IsNotExist, ResponseWriter.WriteHeader, ResponseWriter.new,
          ResponseWriter.statusCode, StatusNotFound, StatusNoContent, StatusOK]
      | some node =>
        intro _
        simp only
        refine ⟨lookup_erase_same fs _, ?_⟩
        intro g gb
        constructor
        · intro hg
          rw [get_absent p g (fs.erase (Join dirName name)) name gb
            (stat_absent g _ name hg (lookup_erase_same fs _))]
          rfl
        · intro hg
          rw [get_stat_other p g (fs.erase (Join dirName name)) name gb hg]
          rfl

/-- Witness of C3 as amended: `a.txt` exists, is deleted with 204, and the `GET`
answers 404; a removal that fails with another error answers 500; the removal of an
absent name answers 404; a `DELETE` on `a.txt/` removes `a.txt` with 204, and one on
the empty name removes the empty storage root with 204. -/
theorem delete_status_witness :
    (serve hostWithTxt noFaults (rootWithA hello)
        { Method := MethodDelete, name := "a.txt", Body := [] }).2.statusCode
        = some StatusNoContent
    ∧ (serve hostWithTxt noFaults
        (serve hostWithTxt noFaults (rootWithA hello)
          { Method := MethodDelete, name := "a.txt", Body := [] }).1
        { Method := MethodGet, name := "a.txt", Body := [] }).2.statusCode
        = some StatusNotFound
    ∧ (serve hostWithTxt (removeFails FsError.other) (rootWithA hello)
        { Method := MethodDelete, name := "a.txt", Body := [] }).2.statusCode
        = some StatusInternalServerError
    ∧ (serve hostWithTxt noFaults emptyRoot
        { Method := MethodDelete, name := "a.txt", Body := [] }).2.statusCode
        = some StatusNotFound
    ∧ (serve hostWithTxt noFaults (rootWithA hello)
        { Method := MethodDelete, name := "a.txt/", Body := [] }).2.statusCode
        = some StatusNoContent
    ∧ (serve hostWithTxt noFaults emptyRoot
        { Method := MethodDelete, name := "", Body := [] }).2.statusCode
        = some StatusNoContent :=
  have h := delete_status hostWithTxt noFaults (rootWithA hello) "a.txt" []
  have h204 := h.2.2.1 (h.2.2.2.2.1 hello rfl (by decide))
  have h2 := delete_status hostWithTxt (removeFails FsError.other) (rootWithA hello)
    "a.txt" []
  have h3 := delete_status hostWithTxt noFaults emptyRoot "a.txt" []
  have h4 := delete_status hostWithTxt noFaults (rootWithA hello) "a.txt/" []
  have h5 := delete_status hostWithTxt noFaults emptyRoot "" []
  ⟨h204, ((h.2.2.2.2.2.2 h204).2 noFaults []).1 (by decide),
    h2.2.1 FsError.other rfl rfl, h3.1 FsError.notExist (h3.2.2.2.1 rfl (by decide)) rfl,
    h4.2.2.1 (h4.2.2.2.2.1 hello rfl (by decide)), h5.2.2.1 (by decide)⟩

/-- Claim C3 fails as stated, on a sound file system: `a.txt` exists, the `DELETE` on
`a.txt/` answers 204 and removes it (`path.Join` cleans the name), and the `GET` on
`a.txt/` that follows answers 500, not 404: `os.DirFS` refuses the name, so its `Stat`
fails with an error that does not say "does not exist".  The same holds of a `GET` on
`a.txt` after a `DELETE` on `a.txt` when its `Stat` fails with such an error. -/
theorem get_after_delete_not_always_404 :
    (serve hostWithTxt (dirFSFaults "a.txt/") (rootWithA hello)
        { Method := MethodDelete, name := "a.txt/", Body := [] }).2.statusCode
        = some StatusNoContent
    ∧ (serve hostWithTxt (dirFSFaults "a.txt/") (rootWithA hello)
        { Method := MethodDelete, name := "a.txt/", Body := [] }).1 = emptyRoot
    ∧ (serve hostWithTxt (dirFSFaults "a.txt/")
        (serve hostWithTxt (dirFSFaults "a.txt/") (rootWithA hello)
          { Method := MethodDelete, name := "a.txt/", Body := [] }).1
        { Method := MethodGet, name := "a.txt/", Body := [] }).2.statusCode
        = some StatusInternalServerError
    ∧ (serve hostWithTxt (dirFSFaults "a.txt/")
        (serve hostWithTxt (dirFSFaults "a.txt/") (rootWithA hello)
          { Method := MethodDelete, name := "a.txt/", Body := [] }).1
        { Method := MethodGet, name := "a.txt/", Body := [] }).2.statusCode
        ≠ some StatusNotFound
    ∧ (serve hostWithTxt noFaults (rootWithA hello)
        { Method := MethodDelete, name := "a.txt", Body := [] }).2.statusCode
        = some StatusNoContent
    ∧ (serve hostWithTxt (statFails FsError.other)
        (serve hostWithTxt noFaults (rootWithA hello)
          { Method := MethodDelete, name := "a.txt", Body := [] }).1
        { Method := MethodGet, name := "a.txt", Body := [] }).2.statusCode
        = some StatusInternalServerError := by
  decide

/-- Claim C4. For every name of which `Stat` reports that it does not exist, as it does
for a name that was never written, both `GET` and `HEAD` answer 404, write no body and
set neither `Content-Type` nor `Content-Length`. -/
theorem get_head_not_found (p : Platform) (flt : Faults) (fs : FS) (name : String)
    (gb hb : List Byte) (hs : Stat flt fs name = Except.error FsError.notExist) :
    (serve p flt fs { Method := MethodGet, name := name, Body := gb }).2.statusCode
        = some StatusNotFound
    ∧ (serve p flt fs { Method := MethodGet, name := name, Body := gb }).2.body = []
    ∧ (serve p flt fs { Method := MethodGet, name := name, Body := gb }).2.Get
        "Content-Type" = none
    ∧ (serve p flt fs { Method := MethodGet, name := name, Body := gb }).2.Get
        "Content-Length" = none
    ∧ (serve p flt fs { Method := MethodHead, name := name, Body := hb }).2.statusCode
        = some StatusNotFound
    ∧ (serve p flt fs { Method := MethodHead, name := name, Body := hb }).2.body = []
    ∧ (serve p flt fs { Method := MethodHead, name := name, Body := hb }).2.Get
        "Content-Type" = none
    ∧ (serve p flt fs { Method := MethodHead, name := name, Body := hb }).2.Get
        "Content-Length" = none := by
  rw [get_absent p flt fs name gb hs, head_absent p flt fs name hb hs]
  simp [ResponseWriter.WriteHeader, ResponseWriter.new, ResponseWriter.statusCode,
    ResponseWriter.Get]

/-- Witness of C4: `a.txt` was never written to a storage root that holds `b.txt`. -/
theorem get_head_not_found_witness :
    (serve hostWithTxt noFaults [("uploads", Node.dir 4096), ("uploads/b.txt", Node.file hi)]
        { Method := MethodGet, name := "a.txt", Body := [] }).2.statusCode
        = some StatusNotFound
    ∧ (serve hostWithTxt noFaults [("uploads", Node.dir 4096), ("uploads/b.txt", Node.file hi)]
        { Method := MethodHead, name := "a.txt", Body := [] }).2.statusCode
        = some StatusNotFound :=
  have h := get_head_not_found hostWithTxt noFaults
    [("uploads", Node.dir 4096), ("uploads/b.txt", Node.file hi)] "a.txt" [] []
    (stat_absent noFaults _ "a.txt" (by decide) (by decide))
  ⟨h.1, h.2.2.2.2.1⟩

/-- Claim C5. For every existing resource (`Stat` finds it) and the same state of the
file system, `GET` and `HEAD` leave the same header map, in which `Content-Length` is
the decimal string of the byte size of the resource and `Content-Type` the MIME type
of the extension of the name; `HEAD` answers 200 and writes no body. What becomes of
the later calls of the `GET` makes no difference. -/
theorem get_head_same_headers (p : Platform) (flt : Faults) (fs : FS) (name : String)
    (gb hb : List Byte) (info : FileInfo) (hs : Stat flt fs name = Except.ok info) :
    (serve p flt fs { Method := MethodGet, name := name, Body := gb }).2.header
        = (serve p flt fs { Method := MethodHead, name := name, Body := hb }).2.header
    ∧ (∃ node, fs.find name = some node ∧ info.Size = (node.size : Int)
        ∧ FormatInt info.Size = toString node.size)
    ∧ (serve p flt fs { Method := MethodGet, name := name, Body := gb }).2.Get
        "Content-Length" = some (FormatInt info.Size)
    ∧ (serve p flt fs { Method := MethodGet, name := name, Body := gb }).2.Get
        "Content-Type" = some (TypeByExtension p (Ext name))
    ∧ (serve p flt fs { Method := MethodHead, name := name, Body := hb }).2.Get
        "Content-Length" = some (FormatInt info.Size)
    ∧ (serve p flt fs { Method := MethodHead, name := name, Body := hb }).2.Get
        "Content-Type" = some (TypeByExtension p (Ext name))
    ∧ (serve p flt fs { Method := MethodHead, name := name, Body := hb }).2.statusCode
        = some StatusOK
    ∧ (serve p flt fs { Method := MethodHead, name := name, Body := hb }).2.body = [] := by
  obtain ⟨h1, node, h2, h3⟩ := stat_ok flt fs name info hs
  have h := headers_of_existing p flt fs name node gb hb h1 h2
  have hsz : FormatInt info.Size = toString node.size := by
    rw [h3]
    exact formatInt_natCast node.size
  rw [hsz]
  exact ⟨h.1, ⟨node, h2, h3, rfl⟩, h.2.1, h.2.2.1, h.2.2.2.1, h.2.2.2.2.1, h.2.2.2.2.2.1,
    h.2.2.2.2.2.2⟩

/-- Witness of C5: `a.txt` holds the five bytes of `hello`. -/
theorem get_head_same_headers_witness :
    (serve hostWithTxt noFaults (rootWithA hello)
        { Method := MethodGet, name := "a.txt", Body := [] }).2.header
      = (serve hostWithTxt noFaults (rootWithA hello)
        { Method := MethodHead, name := "a.txt", Body := [] }).2.header
    ∧ (serve hostWithTxt noFaults (rootWithA hello)
        { Method := MethodGet, name := "a.txt", Body := [] }).2.Get "Content-Length"
      = some "5"
    ∧ (serve hostWithTxt noFaults (rootWithA hello)
        { Method := MethodHead, name := "a.txt", Body := [] }).2.Get "Content-Length"
      = some "5"
    ∧ (serve hostWithTxt noFaults (rootWithA hello)
        { Method := MethodHead, name := "a.txt", Body := [] }).2.Get "Content-Type"
      = some "text/plain; charset=utf-8"
    ∧ (serve hostWithTxt noFaults (rootWithA hello)
        { Method := MethodHead, name := "a.txt", Body := [] }).2.statusCode
      = some StatusOK :=
  have h := get_head_same_headers hostWithTxt noFaults (rootWithA hello) "a.txt" [] []
    { Size := 5 } rfl
  ⟨h.1, h.2.2.1, h.2.2.2.2.1, h.2.2.2.2.2.1, h.2.2.2.2.2.2.1⟩

/-- Claim C6. When the enumeration of the storage root succeeds with the entries
`entries`, `allFiles` answers 200 with `Content-Type: application/json` and the
body `json.Marshal` makes of the slice of the `FileEntry` values of the entries: a
JSON array of as many objects as there are entries, in their order, the object of an
entry `e` having the name of `e`, the MIME type of the extension of that name (which
is what `GET` and `HEAD` put in `Content-Type` for that name) and the size `e` reports,
or -1 when `Info()` fails for `e`; an entry is computed from that entry alone, so a
failure on one changes no other; and for an empty root the body is `[]`. -/
theorem allFiles_listing (p : Platform) (flt : Faults) (fs : FS) (entries : List DirEntry)
    (h : ReadDir flt fs = Except.ok entries) :
    (allFiles p flt fs ResponseWriter.new).statusCode = some StatusOK
    ∧ (allFiles p flt fs ResponseWriter.new).Get "Content-Type" = some "application/json"
    ∧ (allFiles p flt fs ResponseWriter.new).body
      = bytesOf ("[" ++ String.intercalate ","
          ((entries.map (fileEntryOf p)).map encodeFileEntry) ++ "]")
    ∧ (entries.map (fileEntryOf p)).length = entries.length
    ∧ (∀ (i : Nat) (e : DirEntry), entries[i]? = some e →
        (entries.map (fileEntryOf p))[i]?
          = some { Name := e.Name,
                   Size := (match e.Info with
                     | Except.ok stat => stat.Size
                     | Except.error _ => -1),
                   Mimetype := TypeByExtension p (Ext e.Name) })
    ∧ (∀ (i : Nat) (name : String) (node : Node), (children fs)[i]? = some (name, node) →
        (entries.map (fileEntryOf p))[i]?
          = some { Name := name,
                   Size := if flt.info name = none then (node.size : Int) else -1,
                   Mimetype := TypeByExtension p (Ext name) })
    ∧ (∀ (e : DirEntry) (g : Faults) (gb hb : List Byte), e ∈ entries → g.stat = none →
        (serve p g fs { Method := MethodGet, name := e.Name, Body := gb }).2.Get
            "Content-Type" = some (fileEntryOf p e).Mimetype
        ∧ (serve p g fs { Method := MethodHead, name := e.Name, Body := hb }).2.Get
            "Content-Type" = some (fileEntryOf p e).Mimetype)
    ∧ (entries = [] → (allFiles p flt fs ResponseWriter.new).body = [91, 93])
    ∧ (children fs = [] → (allFiles p flt fs ResponseWriter.new).body = [91, 93]) := by
  have hent : entries = (children fs).map (fun e =>
      ({ Name := e.1,
         Info := match flt.info e.1 with
           | some err => Except.error err
           | none => Except.ok { Size := (e.2.size : Int) } } : DirEntry)) := by
    unfold ReadDir at h
    cases hr : flt.readDir with
    | some err => simp [hr] at h
    | none =>
      cases hl : fs.lookup rootPath with
      | none => simp [hr, hl] at h
      | some node =>
        cases node with
        | file data => simp [hr, hl] at h
        | dir size =>
          simp only [hr, hl] at h
          exact (Except.ok.inj h).symm
  have hall : allFiles p flt fs ResponseWriter.new
      = { status := some StatusOK, header := [("Content-Type", "application/json")],
          body := bytesOf (Marshal (entries.map (fileEntryOf p))), panicked := false } := by
    simp [allFiles, h, ResponseWriter.Set, ResponseWriter.Write, ResponseWriter.WriteHeader,
      ResponseWriter.new]
  refine ⟨?_, ?_, ?_, ?_, ?_, ?_, ?_, ?_, ?_⟩
  · simp [hall, ResponseWriter.statusCode]
  · simp [hall, ResponseWriter.Get]
  · rw [hall]
    rfl
  · simp
  · intro i e hi
    rw [List.getElem?_map, hi]
    simp only [Option.map_some', fileEntryOf]
    cases e.Info <;> rfl
  · intro i name node hi
    rw [List.getElem?_map, hent, List.getElem?_map, hi]
    simp only [Option.map_some', fileEntryOf]
    cases flt.info name <;> simp
  · intro e g gb hb he hs
    rw [hent] at he
    obtain ⟨x, hx, hxe⟩ := List.mem_map.mp he
    obtain ⟨node, hd⟩ := Option.ne_none_iff_exists'.mp (find_of_child fs x.1 x.2 hx)
    have hn : e.Name = x.1 := by rw [← hxe]
    have hh := headers_of_existing p g fs e.Name node gb hb hs (by rw [hn]; exact hd)
    exact ⟨hh.2.2.1, hh.2.2.2.2.1⟩
  · intro he
    rw [hall, he]
    show bytesOf (Marshal []) = [91, 93]
    decide
  · intro hfs
    rw [hall, hent, hfs]
    show bytesOf (Marshal []) = [91, 93]
    decide

/-- Witness of C6: a root with `a.txt` of five bytes and `b` of two bytes, `Info()`
failing for `b`. -/
theorem allFiles_listing_witness :
    (allFiles hostWithTxt (infoFails "b") rootWithAB ResponseWriter.new).statusCode
      = some StatusOK
    ∧ (allFiles hostWithTxt (infoFails "b") rootWithAB ResponseWriter.new).body
      = bytesOf ("[\x7b\"name\":\"a.txt\",\"size\":5,\"mimetype\":\"text/plain; charset=utf-8\"\x7d,"
          ++ "\x7b\"name\":\"b\",\"size\":-1,\"mimetype\":\"\"\x7d]")
    ∧ (allFiles hostWithTxt noFaults emptyRoot ResponseWriter.new).body = [91, 93] :=
  have h := allFiles_listing hostWithTxt (infoFails "b") rootWithAB
    [ { Name := "a.txt", Info := Except.ok { Size := 5 } },
      { Name := "b", Info := Except.error FsError.other } ] rfl
  have h0 := allFiles_listing hostWithTxt noFaults emptyRoot [] rfl
  ⟨h.1, h.2.2.1.trans (by decide), h0.2.2.2.2.2.2.2.2 (by decide)⟩

/-- Claim C7. For every request whose method is none of `GET`, `HEAD`, `PUT` and
`DELETE`, the handler answers 405 and writes no body, whatever the name, the request
body, the state of the file system and the fate of its calls; the file system is left
as it was. -/
theorem other_method_not_allowed (p : Platform) (flt : Faults) (fs : FS) (r : Request)
    (hg : r.Method ≠ MethodGet) (hh : r.Method ≠ MethodHead) (hp : r.Method ≠ MethodPut)
    (hd : r.Method ≠ MethodDelete) :
    (serve p flt fs r).2.statusCode = some StatusMethodNotAllowed
    ∧ (serve p flt fs r).2.body = []
    ∧ (serve p flt fs r).1 = fs := by
  rw [serve, genericFileAccess_default p flt fs _ r hg hh hp hd]
  simp [ResponseWriter.WriteHeader, ResponseWriter.new, ResponseWriter.statusCode]

/-- Witness of C7: a `PATCH` on an existing name. -/
theorem other_method_not_allowed_witness :
    (serve hostWithTxt noFaults (rootWithA hello)
        { Method := "PATCH", name := "a.txt", Body := hi }).2.statusCode
      = some StatusMethodNotAllowed
    ∧ (serve hostWithTxt noFaults (rootWithA hello)
        { Method := "PATCH", name := "a.txt", Body := hi }).2.body = []
    ∧ (serve hostWithTxt noFaults (rootWithA hello)
        { Method := "PATCH", name := "a.txt", Body := hi }).1 = rootWithA hello :=
  other_method_not_allowed hostWithTxt noFaults (rootWithA hello)
    { Method := "PATCH", name := "a.txt", Body := hi }
    (by decide) (by decide) (by decide) (by decide)

/-- Claim C8, at an input where the source does not do what it sets out to: `a.txt`
exists, `Stat` succeeds and `dir.Open` fails.  The handler does not return: it panics
at `defer file.Close()` on the nil `fs.File`, no status is written and the client is
sent no response, where the source means to answer 500 and return.  The `PUT` case
does what this one misses: when `os.Create` fails it answers 500 and returns. -/
theorem get_open_failure_panics :
    Stat (openFails FsError.other) (rootWithA hello) "a.txt" = Except.ok { Size := 5 }
    ∧ Open (openFails FsError.other) (rootWithA hello) "a.txt"
      = Except.error FsError.other
    ∧ (serve hostWithTxt (openFails FsError.other) (rootWithA hello)
        { Method := MethodGet, name := "a.txt", Body := [] }).2.panicked = true
    ∧ (serve hostWithTxt (openFails FsError.other) (rootWithA hello)
        { Method := MethodGet, name := "a.txt", Body := [] }).2.status = none
    ∧ (serve hostWithTxt (openFails FsError.other) (rootWithA hello)
        { Method := MethodGet, name := "a.txt", Body := [] }).2.statusCode
      ≠ some StatusInternalServerError
    ∧ (serve hostWithTxt (openFails FsError.other) (rootWithA hello)
        { Method := MethodGet, name := "a.txt", Body := [] }).2.body = []
    ∧ (serve hostWithTxt (createFails FsError.other) emptyRoot
        { Method := MethodPut, name := "a.txt", Body := hello }).2.panicked = false
    ∧ (serve hostWithTxt (createFails FsError.other) emptyRoot
        { Method := MethodPut, name := "a.txt", Body := hello }).2.statusCode
      = some StatusInternalServerError := by
  refine ⟨rfl, rfl, ?_, ?_, ?_, ?_, ?_, ?_⟩ <;> decide

/-- Claim C9, as the source has it. With `a.txt` absent at the start, on a host whose
MIME database gives `.txt` the type `text/plain`: the `PUT` of `hello` answers 201;
the `GET` answers 200 with the body `hello`, `Content-Length: 5` and
`Content-Type: text/plain; charset=utf-8`; the `PUT` of `hi` answers 204; the `GET`
has the body `hi` and `Content-Length: 2`; the `DELETE` answers 204; the last `GET`
answers 404. -/
theorem scenario_a_txt (p : Platform) (fs : FS) (h : fs.find "a.txt" = none)
    (hm : p.mimeTypes.lookup ".txt" = some "text/plain") :
    (scenarioPut1 p fs).2.statusCode = some StatusCreated
    ∧ (scenarioGet1 p fs).2.statusCode = some StatusOK
    ∧ (scenarioGet1 p fs).2.body = hello
    ∧ (scenarioGet1 p fs).2.Get "Content-Length" = some "5"
    ∧ (scenarioGet1 p fs).2.Get "Content-Type" = some "text/plain; charset=utf-8"
    ∧ (scenarioPut2 p fs).2.statusCode = some StatusNoContent
    ∧ (scenarioGet2 p fs).2.statusCode = some StatusOK
    ∧ (scenarioGet2 p fs).2.body = hi
    ∧ (scenarioGet2 p fs).2.Get "Content-Length" = some "2"
    ∧ (scenarioDelete p fs).2.statusCode = some StatusNoContent
    ∧ (scenarioGet3 p fs).2.statusCode = some StatusNotFound := by
  have hct : TypeByExtension p (Ext "a.txt") = "text/plain; charset=utf-8" := by
    have he : Ext "a.txt" = ".txt" := by decide
    rw [he, typeByExtension_of_system p ".txt" "text/plain" hm]
    decide
  have f1 : (scenarioPut1 p fs).1.find "a.txt" = some (Node.file hello) :=
    put_noFaults_find p fs _ _
  have g1 := get_existing_response p (scenarioPut1 p fs).1 "a.txt" [] (Node.file hello) f1
  have e1 : (scenarioGet1 p fs).1 = (scenarioPut1 p fs).1 := g1.1
  have f2 : (scenarioPut2 p fs).1.find "a.txt" = some (Node.file hi) :=
    put_noFaults_find p _ _ _
  have g2 := get_existing_response p (scenarioPut2 p fs).1 "a.txt" [] (Node.file hi) f2
  have e2 : (scenarioGet2 p fs).1 = (scenarioPut2 p fs).1 := g2.1
  have d := delete_noFaults_existing p (scenarioGet2 p fs).1 "a.txt" [] (Node.file hi)
    (by rw [e2]; exact f2)
  refine ⟨?_, g1.2.1, g1.2.2.1, g1.2.2.2.1, ?_, ?_, g2.2.1, g2.2.2.1, g2.2.2.2.1, ?_, ?_⟩
  · simp only [scenarioPut1]
    rw [put_noFaults, if_pos h]
    rfl
  · have := g1.2.2.2.2
    rw [hct] at this
    exact this
  · simp only [scenarioPut2]
    rw [put_noFaults, if_neg (by rw [e1, f1]; simp)]
    rfl
  · simp only [scenarioDelete]
    rw [d]
    rfl
  · simp only [scenarioGet3, scenarioDelete]
    rw [d, get_absent p noFaults _ "a.txt" []
      (stat_absent noFaults _ "a.txt" (by decide) (lookup_erase_same _ _))]
    rfl

/-- Witness of C9 as amended: the scenario on the empty storage root of a host with
the usual entry for `.txt`. -/
theorem scenario_a_txt_witness :
    (scenarioPut1 hostWithTxt emptyRoot).2.statusCode = some StatusCreated
    ∧ (scenarioGet1 hostWithTxt emptyRoot).2.statusCode = some StatusOK
    ∧ (scenarioGet1 hostWithTxt emptyRoot).2.body = hello
    ∧ (scenarioGet1 hostWithTxt emptyRoot).2.Get "Content-Length" = some "5"
    ∧ (scenarioGet1 hostWithTxt emptyRoot).2.Get "Content-Type"
      = some "text/plain; charset=utf-8"
    ∧ (scenarioPut2 hostWithTxt emptyRoot).2.statusCode = some StatusNoContent
    ∧ (scenarioGet2 hostWithTxt emptyRoot).2.statusCode = some StatusOK
    ∧ (scenarioGet2 hostWithTxt emptyRoot).2.body = hi
    ∧ (scenarioGet2 hostWithTxt emptyRoot).2.Get "Content-Length" = some "2"
    ∧ (scenarioDelete hostWithTxt emptyRoot).2.statusCode = some StatusNoContent
    ∧ (scenarioGet3 hostWithTxt emptyRoot).2.statusCode = some StatusNotFound :=
  scenario_a_txt hostWithTxt emptyRoot (by decide) (by decide)

/-- Claim C9 fails as stated: in the scenario the `Content-Type` of the first `GET` is
`text/plain; charset=utf-8` on a host with the usual entry for `.txt`, and on no host
and from no file system is it exactly `text/plain`. -/
theorem scenario_content_type_not_bare :
    (scenarioGet1 hostWithTxt emptyRoot).2.Get "Content-Type"
      = some "text/plain; charset=utf-8"
    ∧ (scenarioGet1 hostWithTxt emptyRoot).2.Get "Content-Type" ≠ some "text/plain"
    ∧ ∀ (p : Platform) (fs : FS),
        (scenarioGet1 p fs).2.Get "Content-Type" ≠ some "text/plain" := by
  refine ⟨by decide, by decide, ?_⟩
  intro p fs
  have f1 : (scenarioPut1 p fs).1.find "a.txt" = some (Node.file hello) :=
    put_noFaults_find p fs _ _
  have g1 := get_existing_response p (scenarioPut1 p fs).1 "a.txt" [] (Node.file hello) f1
  have hct : (scenarioGet1 p fs).2.Get "Content-Type"
      = some (TypeByExtension p (Ext "a.txt")) := g1.2.2.2.2
  rw [hct]
  intro hc
  exact typeByExtension_ne_text_plain p _ (Option.some.inj hc)

/-- Claim C10, as the source has it. When the `Stat` of a `PUT` fails, for whatever
reason, and the create and the copy succeed, the status is 201 if the error says the
name does not exist and 204 for every other error: such an error is treated as
"exists".  The body is then the content of the file at `path.Join(dirName, name)`. -/
theorem put_status_by_stat_error (p : Platform) (flt : Faults) (fs : FS) (name : String)
    (b : List Byte) (err : FsError) (hs : Stat flt fs name = Except.error err)
    (hc : (Create flt fs (Join dirName name)).1 = none)
    (hi : (copyBody flt (Create flt fs (Join dirName name)).2 (Join dirName name) b).1
      = none) :
    (serve p flt fs { Method := MethodPut, name := name, Body := b }).2.statusCode
      = some (if IsNotExist err then StatusCreated else StatusNoContent)
    ∧ (serve p flt fs { Method := MethodPut, name := name, Body := b }).1.lookup
        (Join dirName name) = some (Node.file b) := by
  have hc1 : flt.create = none := by
    unfold Create at hc
    cases h : flt.create with
    | none => rfl
    | some e => simp [h] at hc
  have hi1 : flt.copyIn = none := by
    unfold copyBody at hi
    cases h : flt.copyIn with
    | none => rfl
    | some k => simp [h] at hi
  rw [serve, genericFileAccess_put _ _ _ _ _ rfl]
  simp only [handlePut, hs]
  unfold Create copyBody
  cases err <;>
    simp [hc1, hi1, IsNotExist, ResponseWriter.WriteHeader, ResponseWriter.new,
      ResponseWriter.statusCode, lookup_store_same]

/-- Witness of C10 as amended: the `Stat` of a `PUT` on an absent name reports that it
does not exist, and the status is 201; the `Stat` of a `PUT` fails with another error,
and the status is 204. -/
theorem put_status_by_stat_error_witness :
    (serve hostWithTxt noFaults emptyRoot
        { Method := MethodPut, name := "a.txt", Body := hello }).2.statusCode
      = some StatusCreated
    ∧ (serve hostWithTxt (statFails FsError.other) emptyRoot
        { Method := MethodPut, name := "a.txt", Body := hello }).2.statusCode
      = some StatusNoContent
    ∧ (serve hostWithTxt (statFails FsError.other) emptyRoot
        { Method := MethodPut, name := "a.txt", Body := hello }).1.lookup "uploads/a.txt"
      = some (Node.file hello) :=
  have h1 := put_status_by_stat_error hostWithTxt noFaults emptyRoot "a.txt" hello
    FsError.notExist rfl rfl rfl
  have h2 := put_status_by_stat_error hostWithTxt (statFails FsError.other) emptyRoot
    "a.txt" hello FsError.other rfl rfl rfl
  ⟨h1.1, h2.1, h2.2⟩

/-- Claim C10 fails as stated: the `Stat` of a `PUT` on `a.txt` fails with an error that
does not say "does not exist", the create and the copy succeed, and the status is 204,
not 201.  So it is on a sound file system for a `PUT` on `a.txt/`, a name `os.DirFS`
refuses: the status is 204 although `a.txt` did not exist, and `a.txt` is written. -/
theorem put_stat_other_error_is_204 :
    Stat (statFails FsError.other) emptyRoot "a.txt" = Except.error FsError.other
    ∧ (Create (statFails FsError.other) emptyRoot (Join dirName "a.txt")).1 = none
    ∧ (serve hostWithTxt (statFails FsError.other) emptyRoot
        { Method := MethodPut, name := "a.txt", Body := hello }).2.statusCode
      = some StatusNoContent
    ∧ (serve hostWithTxt (statFails FsError.other) emptyRoot
        { Method := MethodPut, name := "a.txt", Body := hello }).2.statusCode
      ≠ some StatusCreated
    ∧ Stat (dirFSFaults "a.txt/") emptyRoot "a.txt/" = Except.error FsError.other
    ∧ (serve hostWithTxt (dirFSFaults "a.txt/") emptyRoot
        { Method := MethodPut, name := "a.txt/", Body := hello }).2.statusCode
      = some StatusNoContent
    ∧ (serve hostWithTxt (dirFSFaults "a.txt/") emptyRoot
        { Method := MethodPut, name := "a.txt/", Body := hello }).1
      = rootWithA hello := by
  refine ⟨rfl, rfl, ?_, ?_, rfl, ?_, ?_⟩ <;> decide

end Putstuff
